import Mathlib

/-!
Verification of the job lifecycle subsystem of the pdf-to-csv service.

The definitions below are a shallow embedding of the JavaScript sources:
  * `backend/src/services/jobStore.js`   — in-memory job registry (`JobStore`)
  * `backend/src/utils/ids.js`           — job-id generation and format check
  * `backend/src/routes/jobs.js`         — status / download-url routes
  * `backend/src/routes/callback.js`     — n8n callback handlers
  * `backend/src/services/localStorageClient.js` — key sanitisation

Timestamps (`Date.now()` values) are modelled as natural numbers counting
milliseconds.  The JavaScript `Map` backing the store is modelled as an
association list with unique keys; handlers that perform external calls
(MongoDB, filesystem) take the outcome of those calls as parameters.
-/

/-- Job status, the `status` field of a job record.  The source uses the
string values `processing`, `done` and `error`. -/
inductive Status where
  | processing
  | done
  | error
deriving DecidableEq, Repr

/-- A job record, as documented at the top of `jobStore.js`:
`status`, `filenamePdf`, optional `r2Key`, `presignedUrl` and `error`
fields, plus `createdAt` / `updatedAt` timestamps. -/
structure Job where
  status : Status
  filenamePdf : String
  r2Key : Option String
  presignedUrl : Option String
  errMsg : Option String
  createdAt : Nat
  updatedAt : Nat
deriving DecidableEq, Repr

/-- The registry: the `jobs` map of `JobStore`, an association list from
job id to record.  A JavaScript `Map` never holds a key twice; theorems
that need this carry a `Nodup` hypothesis on the keys. -/
abbrev Store := List (String × Job)

/-- Body of `JobStore.getJob`: `Map.get(jobId) || null`. -/
def getJob (store : Store) (jobId : String) : Option Job :=
  (store.find? (fun p => p.1 = jobId)).map Prod.snd

/-- Semantics of `Map.set(jobId, job)`: replaces the entry when present,
appends otherwise (a JavaScript `Map` keeps insertion order on replace). -/
def storeSet (store : Store) (jobId : String) (job : Job) : Store :=
  if store.any (fun p => p.1 = jobId) then
    store.map (fun p => if p.1 = jobId then (jobId, job) else p)
  else
    store ++ [(jobId, job)]

/-- Embeds `JobStore.createJob(jobId, filenamePdf)`: builds a fresh record with
status `processing` and both timestamps set to the current time, then
unconditionally `Map.set`s it.  Returns the created job and the store. -/
def createJob (store : Store) (jobId : String) (filenamePdf : String)
    (now : Nat) : Job × Store :=
  let job : Job := ⟨Status.processing, filenamePdf, none, none, none, now, now⟩
  (job, storeSet store jobId job)

/-- The `updates` object passed to `JobStore.updateJob`: a field is `some`
exactly when the corresponding key is present in the object literal at the
call site.  Only `status`, `r2Key`, `presignedUrl` and `error` ever appear
in an update in the source. -/
structure JobUpdates where
  status : Option Status
  r2Key : Option String
  presignedUrl : Option String
  errMsg : Option String
deriving DecidableEq, Repr

/-- Helper for `applyUpdates`: an optional field of the update object
overrides the stored optional field only when present. -/
def overrideWith (u : Option String) (old : Option String) : Option String :=
  match u with
  | some v => some v
  | none => old

/-- Semantics of `Object.assign(job, updates, ...updatedAt...)`: each key
present in `updates` overwrites the record field, every other field keeps
its value, and `updatedAt` is set to the current time. -/
def applyUpdates (job : Job) (u : JobUpdates) (now : Nat) : Job :=
  ⟨u.status.getD job.status, job.filenamePdf, overrideWith u.r2Key job.r2Key,
   overrideWith u.presignedUrl job.presignedUrl, overrideWith u.errMsg job.errMsg,
   job.createdAt, now⟩

/-- Embeds `JobStore.updateJob(jobId, updates)`: returns `null` and leaves the
map untouched when the id is absent; otherwise assigns the updates onto
the record, stores it back and returns it. -/
def updateJob (store : Store) (jobId : String) (u : JobUpdates)
    (now : Nat) : Option Job × Store :=
  match getJob store jobId with
  | none => (none, store)
  | some job =>
      let j := applyUpdates job u now
      (some j, storeSet store jobId j)

/-- Embeds `JobStore.completeJob(jobId, r2Key, presignedUrl)`: delegates to
`updateJob` with `{ status: done, r2Key, presignedUrl }`. -/
def completeJob (store : Store) (jobId : String) (r2Key presignedUrl : String)
    (now : Nat) : Option Job × Store :=
  updateJob store jobId ⟨some Status.done, some r2Key, some presignedUrl, none⟩ now

/-- Embeds `JobStore.failJob(jobId, error)`: delegates to `updateJob` with
`{ status: error, error }`. -/
def failJob (store : Store) (jobId : String) (reason : String)
    (now : Nat) : Option Job × Store :=
  updateJob store jobId ⟨some Status.error, none, none, some reason⟩ now

/-- The `TTL_HOURS` constant of `JobStore`, in milliseconds: 24 hours. -/
def ttlMs : Nat := 24 * 60 * 60 * 1000

/-- Embeds `JobStore.cleanup()`: deletes every entry whose `createdAt` is strictly
before `Date.now() - TTL_HOURS` (in milliseconds). -/
def cleanup (store : Store) (now : Nat) : Store :=
  store.filter (fun p => !(p.2.createdAt < now - ttlMs))

/-! ## Identifier format check (`backend/src/utils/ids.js`) -/

/-- A JavaScript value as far as `typeof jobId === 'string'` can tell:
either a string, or anything else (number, object, `null`, `undefined`). -/
inductive JsValue where
  | str (s : String)
  | nonString
deriving DecidableEq, Repr

/-- The character class `[A-Za-z0-9_-]` of the regex in `isValidJobId`. -/
def urlSafeChar (c : Char) : Bool :=
  decide (('A' ≤ c ∧ c ≤ 'Z') ∨ ('a' ≤ c ∧ c ≤ 'z') ∨
    ('0' ≤ c ∧ c ≤ '9') ∨ c = '_' ∨ c = '-')

/-- Embeds `isValidJobId(jobId)`: `typeof jobId === 'string'` and the anchored
regex `/^[A-Za-z0-9_-]{12}$/` matches, i.e. the string is exactly 12
characters, each in the class. -/
def isValidJobId (v : JsValue) : Bool :=
  match v with
  | JsValue.str s => s.length == 12 && s.data.all urlSafeChar
  | JsValue.nonString => false

/-! ## Callback handlers (`backend/src/routes/callback.js`)

Both routes read the `x-callback-secret` and `x-job-id` headers (absent
headers are `undefined`, modelled as `none`) and compare the secret to
`process.env.CALLBACK_SECRET` before anything else.  External effects —
the multer-parsed upload, MongoDB `storeCSV` / `generateDownloadUrl` —
enter as parameters describing their outcome. -/

/-- The guard `!callbackSecret || callbackSecret !== process.env.CALLBACK_SECRET`:
true when the header is absent, empty (falsy) or differs from the
configured secret. -/
def badSecret (cfgSecret : String) (secret : Option String) : Bool :=
  match secret with
  | none => true
  | some s => s == "" || s != cfgSecret

/-- The guard `!jobId || !isValidJobId(jobId)` on the `x-job-id` header. -/
def badJobIdHeader (jobIdHdr : Option String) : Bool :=
  match jobIdHdr with
  | none => true
  | some s => s == "" || !isValidJobId (JsValue.str s)

/-- Outcome of a callback route: which response (or thrown error) the
handler produced. -/
inductive CbResult where
  /-- Status 401 `INVALID_SECRET` -/
  | invalidSecret
  /-- Status 400 `INVALID_JOB_ID` -/
  | invalidJobId
  /-- Status 404 `JOB_NOT_FOUND` (success callback for an unknown job) -/
  | jobNotFound
  /-- Status 400 `NO_CSV_FILE` -/
  | noCsvFile
  /-- Thrown storage error, rethrown after marking the job failed -/
  | storeFailed
  /-- Status 200 on `/callback`: CSV stored, job completed -/
  | okCompleted (fileId url : String)
  /-- Status 200 on `/error` for an unknown job: acknowledged without any write -/
  | okAcknowledged
  /-- Status 200 on `/error`: job marked as failed -/
  | okFailed
deriving DecidableEq, Repr

/-- Embeds `POST /api/n8n/callback` (`onSuccess`).  `csvFile` is the multer
upload (`none` when no file field was sent); `mongoResult` is the outcome
of `storeCSV` + `generateDownloadUrl` — `Except.ok (fileId, url)` or the
thrown message.  Returns the response and the resulting store. -/
def postCallback (cfgSecret : String) (secret jobIdHdr : Option String)
    (csvFile : Option String) (mongoResult : Except String (String × String))
    (store : Store) (now : Nat) : CbResult × Store :=
  if badSecret cfgSecret secret then (CbResult.invalidSecret, store)
  else if badJobIdHeader jobIdHdr then (CbResult.invalidJobId, store)
  else
    let jobId := jobIdHdr.getD ""
    match getJob store jobId with
    | none => (CbResult.jobNotFound, store)
    | some _ =>
        match csvFile with
        | none =>
            (CbResult.noCsvFile,
             (failJob store jobId "No CSV file received from n8n" now).2)
        | some _ =>
            match mongoResult with
            | Except.ok (fileId, url) =>
                (CbResult.okCompleted fileId url,
                 (completeJob store jobId fileId url now).2)
            | Except.error msg =>
                (CbResult.storeFailed,
                 (failJob store jobId ("CSV processing failed: " ++ msg) now).2)

/-- Embeds `POST /api/n8n/error` (`onFailure`).  `errField` / `detailsField` are
the `error` and `details` members of the JSON body (`detailsField`
already rendered by `JSON.stringify`). -/
def postError (cfgSecret : String) (secret jobIdHdr : Option String)
    (errField detailsField : Option String)
    (store : Store) (now : Nat) : CbResult × Store :=
  if badSecret cfgSecret secret then (CbResult.invalidSecret, store)
  else if badJobIdHeader jobIdHdr then (CbResult.invalidJobId, store)
  else
    let jobId := jobIdHdr.getD ""
    match getJob store jobId with
    | none => (CbResult.okAcknowledged, store)
    | some _ =>
        let errorMessage :=
          match errField with
          | some e => if e == "" then "n8n workflow failed" else e
          | none => "n8n workflow failed"
        let fullError :=
          match detailsField with
          | some d => errorMessage ++ ": " ++ d
          | none => errorMessage
        (CbResult.okFailed, (failJob store jobId fullError now).2)

/-! ## Download resolver (`backend/src/routes/jobs.js`, `GET /:jobId/download-url`) -/

/-- Embeds `filenamePdf.replace(/\.pdf$/i, '.csv')`: swap a trailing `.pdf`
(case-insensitive) for `.csv`. -/
def csvFilename (name : String) : String :=
  if name.toLower.endsWith ".pdf" then name.dropRight 4 ++ ".csv" else name

/-- Outcome of the download-url route. -/
inductive DlResult where
  /-- Status 400 `INVALID_JOB_ID` -/
  | invalidJobId
  /-- Status 404 `JOB_NOT_FOUND` -/
  | jobNotFound
  /-- Status 400 `JOB_NOT_READY` (`job.status !== 'done'`) -/
  | jobNotReady
  /-- Status 500 `CSV_NOT_AVAILABLE` (`!job.r2Key`) -/
  | csvNotAvailable
  /-- Status 500 `DOWNLOAD_URL_ERROR` (`generateDownloadUrl` threw) -/
  | urlFailed
  /-- Status 200 with the fresh url and derived filename -/
  | ok (url filename : String)
deriving DecidableEq, Repr

/-- The route body: format check, lookup, `status !== 'done'` guard,
`!job.r2Key` guard, then a fresh URL from `generateDownloadUrl`
(`freshUrl = none` models a throw) stored back via `updateJob`. -/
def downloadUrlRoute (store : Store) (jobId : String) (freshUrl : Option String)
    (now : Nat) : DlResult × Store :=
  if !isValidJobId (JsValue.str jobId) then (DlResult.invalidJobId, store)
  else
    match getJob store jobId with
    | none => (DlResult.jobNotFound, store)
    | some job =>
        if job.status ≠ Status.done then (DlResult.jobNotReady, store)
        else if job.r2Key.getD "" == "" then (DlResult.csvNotAvailable, store)
        else
          match freshUrl with
          | none => (DlResult.urlFailed, store)
          | some url =>
              (DlResult.ok url (csvFilename job.filenamePdf),
               (updateJob store jobId ⟨none, none, some url, none⟩ now).2)

/-! ## Blob-store key sanitisation (`backend/src/services/localStorageClient.js`)

`getFilePath` computes `key.replace(/\.\./g, '').replace(/^\/+/, '')` and
joins the result onto the storage directory.  The two regex replaces are
modelled over the character list of the key. -/

/-- Embeds `key.replace(/\.\./g, '')`: the left-to-right, non-overlapping global
removal of every `..` occurrence. -/
def removeDotDot : List Char → List Char
  | [] => []
  | [c] => [c]
  | a :: b :: rest =>
      if a = '.' ∧ b = '.' then removeDotDot rest
      else a :: removeDotDot (b :: rest)

/-- Embeds the second replace, `.replace(/^\/+/, '')`: strip every leading slash. -/
def dropLeadingSlashes : List Char → List Char
  | [] => []
  | c :: rest => if c = '/' then dropLeadingSlashes rest else c :: rest

/-- The sanitised key of `getFilePath`, before `path.join(storageDir, ·)`. -/
def sanitizeKey (key : List Char) : List Char :=
  dropLeadingSlashes (removeDotDot key)

/-! ## Store lemmas -/

/-- Setting a key that occurs in the store makes `getJob` return the new
record (the map-replace branch of `storeSet`). -/
theorem getJob_map_set (store : Store) (id : String) (j : Job)
    (h : store.any (fun p => p.1 = id) = true) :
    getJob (store.map (fun p => if p.1 = id then (id, j) else p)) id = some j := by
  induction store with
  | nil => simp at h
  | cons p rest ih =>
      by_cases hp : p.1 = id
      · simp [getJob, hp]
      · have h2 : rest.any (fun q => q.1 = id) = true := by
          simpa [hp] using h
        simpa [getJob, hp] using ih h2

/-- Setting a key absent from the store appends it, and `getJob` finds it. -/
theorem getJob_append_absent (store : Store) (id : String) (j : Job)
    (h : store.any (fun p => p.1 = id) = false) :
    getJob (store ++ [(id, j)]) id = some j := by
  induction store with
  | nil => simp [getJob]
  | cons p rest ih =>
      simp only [List.any_cons, Bool.or_eq_false_iff, decide_eq_false_iff_not] at h
      have := ih (by simp [h.2])
      simpa [getJob, h.1] using this

/-- After `Map.set(id, j)`, `Map.get(id)` returns `j`. -/
theorem getJob_storeSet_self (store : Store) (id : String) (j : Job) :
    getJob (storeSet store id j) id = some j := by
  unfold storeSet
  by_cases h : store.any (fun p => p.1 = id) = true
  · rw [if_pos (by simpa using h)]
    exact getJob_map_set store id j h
  · rw [if_neg (by simpa using h)]
    exact getJob_append_absent store id j (by simpa using Bool.of_not_eq_true h)

/-- Unfolding `updateJob` when the job exists. -/
theorem updateJob_found (store : Store) (id : String) (u : JobUpdates) (now : Nat)
    (job : Job) (h : getJob store id = some job) :
    updateJob store id u now =
      (some (applyUpdates job u now), storeSet store id (applyUpdates job u now)) := by
  unfold updateJob
  rw [h]

/-- A key held by no entry is absent for `getJob`. -/
theorem getJob_none_of_forall (store : Store) (id : String)
    (h : ∀ q ∈ store, q.1 ≠ id) : getJob store id = none := by
  unfold getJob
  rw [List.find?_eq_none.mpr (by intro q hq; simpa using h q hq)]
  rfl

/-- C7: the TTL sweep removes exactly the records whose `createdAt` is
strictly older than `now` minus the 24-hour TTL — unconditionally of
their state, which the statement never mentions — and leaves every record
within the TTL present and unchanged: on a store with unique keys, a
record is retrievable after `cleanup` exactly when it was retrievable
before and is not older than the cutoff. -/
theorem getJob_cleanup (store : Store) (now : Nat) (id : String) (j : Job)
    (hnd : (store.map Prod.fst).Nodup) :
    getJob (cleanup store now) id = some j ↔
      getJob store id = some j ∧ ¬ (j.createdAt < now - ttlMs) := by
  induction store with
  | nil => simp [cleanup, getJob]
  | cons p rest ih =>
      rw [List.map_cons, List.nodup_cons] at hnd
      obtain ⟨hnotin, hnd2⟩ := hnd
      by_cases hp : p.1 = id
      · by_cases hkeep : p.2.createdAt < now - ttlMs
        · have hstep : cleanup (p :: rest) now = cleanup rest now := by
            simp [cleanup, hkeep]
          have hnone : getJob (cleanup rest now) id = none := by
            apply getJob_none_of_forall
            intro q hq hqid
            exact hnotin (by
              rw [hp]
              exact List.mem_map.mpr ⟨q, (List.mem_filter.mp hq).1, hqid⟩)
          rw [hstep, hnone]
          constructor
          · intro hcontr; cases hcontr
          · rintro ⟨hget, hjk⟩
            have : p.2 = j := by simpa [getJob, hp] using hget
            exact absurd (this ▸ hkeep) hjk
        · have hstep : cleanup (p :: rest) now = p :: cleanup rest now := by
            simp [cleanup, hkeep]
          rw [hstep]
          constructor
          · intro hget
            have : p.2 = j := by simpa [getJob, hp] using hget
            subst this
            exact ⟨by simp [getJob, hp], hkeep⟩
          · rintro ⟨hget, _⟩
            have : p.2 = j := by simpa [getJob, hp] using hget
            subst this
            simp [getJob, hp]
      · have hrest : getJob (p :: rest) id = getJob rest id := by
          simp [getJob, hp]
        by_cases hkeep : p.2.createdAt < now - ttlMs
        · have hstep : cleanup (p :: rest) now = cleanup rest now := by
            simp [cleanup, hkeep]
          rw [hstep, hrest]
          exact ih hnd2
        · have hstep : cleanup (p :: rest) now = p :: cleanup rest now := by
            simp [cleanup, hkeep]
          rw [hstep, hrest]
          have hhead : getJob (p :: cleanup rest now) id = getJob (cleanup rest now) id := by
            simp [getJob, hp]
          rw [hhead]
          exact ih hnd2

/-! ## Sanitiser lemmas -/

/-- When the output of the `..`-removal starts with a dot, so did its input. -/
theorem removeDotDot_head (l : List Char)
    (h : (removeDotDot l).head? = some '.') : l.head? = some '.' := by
  induction l using removeDotDot.induct with
  | case1 => simp [removeDotDot] at h
  | case2 c => simpa [removeDotDot] using h
  | case3 a b rest hab ih =>
      simp [hab.1]
  | case4 a b rest hab ih =>
      rw [removeDotDot] at h
      rw [if_neg hab] at h
      simp only [List.head?_cons, Option.some.injEq] at h
      simp [h]

/-- The `..`-removal pass leaves no `..` occurrence behind: removed
occurrences never bring two remaining dots together. -/
theorem removeDotDot_no_dd (l : List Char) :
    ¬ ['.', '.'] <:+: removeDotDot l := by
  induction l using removeDotDot.induct with
  | case1 =>
      rintro ⟨s, t, hst⟩
      simp [removeDotDot] at hst
  | case2 c =>
      rintro ⟨s, t, hst⟩
      have hlen := congrArg List.length hst
      simp [removeDotDot] at hlen
      omega
  | case3 a b rest hab ih =>
      rw [removeDotDot, if_pos hab]
      exact ih
  | case4 a b rest hab ih =>
      rw [removeDotDot, if_neg hab]
      rintro ⟨s, t, hst⟩
      cases s with
      | nil =>
          simp only [List.nil_append, List.cons_append] at hst
          have ha : a = '.' := ((List.cons.injEq _ _ _ _).mp hst).1.symm
          have hrest : removeDotDot (b :: rest) = '.' :: t :=
            ((List.cons.injEq _ _ _ _).mp hst).2.symm
          have hb : (b :: rest).head? = some '.' := by
            apply removeDotDot_head
            rw [hrest]
            rfl
          exact hab ⟨ha, by simpa using hb⟩
      | cons c s2 =>
          simp only [List.cons_append] at hst
          have hrest : removeDotDot (b :: rest) = s2 ++ ['.', '.'] ++ t :=
            ((List.cons.injEq _ _ _ _).mp hst).2.symm
          exact ih ⟨s2, t, hrest.symm⟩

/-- Stripping leading slashes yields a suffix of its input. -/
theorem dropLeadingSlashes_suffix (l : List Char) :
    dropLeadingSlashes l <:+ l := by
  induction l with
  | nil => exact ⟨[], rfl⟩
  | cons c rest ih =>
      by_cases hc : c = '/'
      · rw [dropLeadingSlashes, if_pos hc]
        obtain ⟨u, hu⟩ := ih
        exact ⟨c :: u, by simp [hu]⟩
      · rw [dropLeadingSlashes, if_neg hc]

/-- Stripping leading slashes never leaves a slash in front. -/
theorem dropLeadingSlashes_head (l : List Char) :
    (dropLeadingSlashes l).head? ≠ some '/' := by
  induction l with
  | nil => simp [dropLeadingSlashes]
  | cons c rest ih =>
      by_cases hc : c = '/'
      · rw [dropLeadingSlashes, if_pos hc]
        exact ih
      · rw [dropLeadingSlashes, if_neg hc]
        simp [hc]

/-- An infix of a suffix is an infix. -/
theorem within_of_suffix {x a b : List Char} (h1 : x <:+: a) (h2 : a <:+ b) :
    x <:+: b := by
  obtain ⟨s, t, hst⟩ := h1
  obtain ⟨u, hu⟩ := h2
  exact ⟨u ++ s, t, by rw [← hu, ← hst]; simp⟩

/-! ## Claims -/

/-- C8: `isValid(candidate)` returns true exactly when the candidate is a
string of exactly 12 characters, each drawn from `A-Z`, `a-z`, `0-9`,
underscore or hyphen; every other input — wrong length, foreign
characters, non-string values — returns false. -/
theorem isValidJobId_iff (v : JsValue) :
    isValidJobId v = true ↔
      ∃ s, v = JsValue.str s ∧ s.length = 12 ∧
        ∀ c ∈ s.data, ('A' ≤ c ∧ c ≤ 'Z') ∨ ('a' ≤ c ∧ c ≤ 'z') ∨
          ('0' ≤ c ∧ c ≤ '9') ∨ c = '_' ∨ c = '-' := by
  cases v with
  | str s =>
      simp [isValidJobId, urlSafeChar, List.all_eq_true]
  | nonString => simp [isValidJobId]

/-- C9: the sanitised blob-store key of `getFilePath` contains no `..`
substring and does not start with a slash, so `path.join(storageDir, ·)`
cannot climb out of the storage directory. -/
theorem sanitizeKey_safe (key : List Char) :
    (¬ ['.', '.'] <:+: sanitizeKey key) ∧
      (sanitizeKey key).head? ≠ some '/' := by
  constructor
  · intro h
    exact removeDotDot_no_dd key
      (within_of_suffix h (dropLeadingSlashes_suffix (removeDotDot key)))
  · exact dropLeadingSlashes_head (removeDotDot key)

/-- C5: any call to either callback route whose supplied secret differs
from the configured one yields the 401 `INVALID_SECRET` outcome, whatever
the job id, body or registry contents, and the registry is returned
untouched (the result does not depend on the store at all: the store is
universally quantified and passed through unchanged). -/
theorem callback_bad_secret (cfg : String) (secret jobIdHdr : Option String)
    (csvFile : Option String) (mres : Except String (String × String))
    (errField detailsField : Option String) (store : Store) (now : Nat)
    (h : secret ≠ some cfg) :
    postCallback cfg secret jobIdHdr csvFile mres store now =
        (CbResult.invalidSecret, store) ∧
      postError cfg secret jobIdHdr errField detailsField store now =
        (CbResult.invalidSecret, store) := by
  have hb : badSecret cfg secret = true := by
    cases secret with
    | none => rfl
    | some s =>
        have hs : s ≠ cfg := fun he => h (by rw [he])
        simp [badSecret, hs]
  constructor <;> simp [postCallback, postError, hb]

/-- Witness for C5 at a concrete mismatching secret. -/
theorem callback_bad_secret_witness :
    postCallback "s3cret" (some "wrong") (some "abcdefghijkl") none
        (Except.error "m") [] 0 = (CbResult.invalidSecret, []) ∧
      postError "s3cret" (some "wrong") (some "abcdefghijkl") none none [] 0 =
        (CbResult.invalidSecret, []) :=
  callback_bad_secret "s3cret" (some "wrong") (some "abcdefghijkl") none
    (Except.error "m") none none [] 0 (by decide)

/-- C6: a correctly authenticated callback naming a well-formed but
unknown job id is acknowledged with a 200 by the error route (so the
external workflow does not retry) but answers 404 `JOB_NOT_FOUND` on the
success route; neither call changes the registry. -/
theorem callback_unknown_job (cfg jid : String)
    (csvFile : Option String) (mres : Except String (String × String))
    (errField detailsField : Option String) (store : Store) (now : Nat)
    (hcfg : cfg ≠ "") (hvalid : isValidJobId (JsValue.str jid) = true)
    (habsent : getJob store jid = none) :
    postError cfg (some cfg) (some jid) errField detailsField store now =
        (CbResult.okAcknowledged, store) ∧
      postCallback cfg (some cfg) (some jid) csvFile mres store now =
        (CbResult.jobNotFound, store) := by
  have hb : badSecret cfg (some cfg) = false := by
    simp [badSecret, hcfg]
  have hjnil : jid ≠ "" := by
    intro he
    subst he
    simp [isValidJobId] at hvalid
  have hj : badJobIdHeader (some jid) = false := by
    simp [badJobIdHeader, hvalid, hjnil]
  constructor <;> simp [postError, postCallback, hb, hj, habsent]

/-- Witness for C6 at a concrete secret, id and empty registry. -/
theorem callback_unknown_job_witness :
    postError "s3cret" (some "s3cret") (some "abcdefghijkl") none none [] 0 =
        (CbResult.okAcknowledged, []) ∧
      postCallback "s3cret" (some "s3cret") (some "abcdefghijkl") none
        (Except.error "m") [] 0 = (CbResult.jobNotFound, []) :=
  callback_unknown_job "s3cret" "abcdefghijkl" none (Except.error "m") none none
    [] 0 (by decide) (by decide) (by decide)

/-- Counterexample to C1: after `complete(id, ref1)` then `complete(id,
ref2)` the stored artifact reference is `ref2`, not `ref1` — the second
call overwrites instead of being a no-op. -/
theorem complete_not_idempotent :
    getJob (completeJob (completeJob
        (createJob [] "abcdefghijkl" "invoice.pdf" 0).2
        "abcdefghijkl" "ref1" "url1" 1).2
        "abcdefghijkl" "ref2" "url2" 2).2 "abcdefghijkl" =
      some ⟨Status.done, "invoice.pdf", some "ref2", some "url2", none, 0, 2⟩ ∧
    ("ref2" : String) ≠ "ref1" := by
  constructor
  · rfl
  · decide

/-- C1 amended: `completeJob` has no idempotent guard — on any existing
job, whatever its current state, it overwrites the status, artifact
reference and presigned url with the newly supplied values (last write
wins) and returns the overwritten record. -/
theorem complete_overwrites (store : Store) (id : String) (job : Job)
    (ref url : String) (now : Nat) (h : getJob store id = some job) :
    (completeJob store id ref url now).1 =
        some ⟨Status.done, job.filenamePdf, some ref, some url,
          job.errMsg, job.createdAt, now⟩ ∧
      getJob (completeJob store id ref url now).2 id =
        some ⟨Status.done, job.filenamePdf, some ref, some url,
          job.errMsg, job.createdAt, now⟩ := by
  unfold completeJob
  rw [updateJob_found store id _ now job h]
  constructor
  · simp [applyUpdates, overrideWith]
  · rw [getJob_storeSet_self]
    simp [applyUpdates, overrideWith]

/-- Witness for the amended C1 on a one-job registry in state `done`. -/
theorem complete_overwrites_witness :
    (completeJob [("abcdefghijkl",
        ⟨Status.done, "a.pdf", some "ref1", some "url1", none, 0, 1⟩)]
        "abcdefghijkl" "ref2" "url2" 2).1 =
        some ⟨Status.done, "a.pdf", some "ref2", some "url2", none, 0, 2⟩ ∧
      getJob (completeJob [("abcdefghijkl",
        ⟨Status.done, "a.pdf", some "ref1", some "url1", none, 0, 1⟩)]
        "abcdefghijkl" "ref2" "url2" 2).2 "abcdefghijkl" =
        some ⟨Status.done, "a.pdf", some "ref2", some "url2", none, 0, 2⟩ :=
  complete_overwrites
    [("abcdefghijkl", ⟨Status.done, "a.pdf", some "ref1", some "url1", none, 0, 1⟩)]
    "abcdefghijkl" ⟨Status.done, "a.pdf", some "ref1", some "url1", none, 0, 1⟩
    "ref2" "url2" 2 (by rfl)

/-- Counterexample to C2: `fail` on a job in state `done` flips it to
`error` — terminal states are not sticky in the code. -/
theorem done_not_sticky :
    getJob (failJob (completeJob
        (createJob [] "abcdefghijkl" "a.pdf" 0).2
        "abcdefghijkl" "k1" "u1" 1).2
        "abcdefghijkl" "late failure" 2).2 "abcdefghijkl" =
      some ⟨Status.error, "a.pdf", some "k1", some "u1", some "late failure", 0, 2⟩ ∧
    Status.error ≠ Status.done := by
  constructor
  · rfl
  · decide

/-- C2 amended: no terminal state is sticky — `failJob` on any existing
job (including one in state `done`) overwrites the status to `error` and
the error message with the supplied reason, keeping the artifact
reference and presigned url fields; symmetrically `completeJob` on a
`failed` job overwrites the status to `done` (see the amended C1). -/
theorem fail_overwrites (store : Store) (id : String) (job : Job)
    (reason : String) (now : Nat) (h : getJob store id = some job) :
    (failJob store id reason now).1 =
        some ⟨Status.error, job.filenamePdf, job.r2Key, job.presignedUrl,
          some reason, job.createdAt, now⟩ ∧
      getJob (failJob store id reason now).2 id =
        some ⟨Status.error, job.filenamePdf, job.r2Key, job.presignedUrl,
          some reason, job.createdAt, now⟩ := by
  unfold failJob
  rw [updateJob_found store id _ now job h]
  constructor
  · simp [applyUpdates, overrideWith]
  · rw [getJob_storeSet_self]
    simp [applyUpdates, overrideWith]

/-- Witness for the amended C2 on a one-job registry in state `done`. -/
theorem fail_overwrites_witness :
    (failJob [("abcdefghijkl",
        ⟨Status.done, "a.pdf", some "k1", some "u1", none, 0, 1⟩)]
        "abcdefghijkl" "boom" 2).1 =
        some ⟨Status.error, "a.pdf", some "k1", some "u1", some "boom", 0, 2⟩ ∧
      getJob (failJob [("abcdefghijkl",
        ⟨Status.done, "a.pdf", some "k1", some "u1", none, 0, 1⟩)]
        "abcdefghijkl" "boom" 2).2 "abcdefghijkl" =
        some ⟨Status.error, "a.pdf", some "k1", some "u1", some "boom", 0, 2⟩ :=
  fail_overwrites
    [("abcdefghijkl", ⟨Status.done, "a.pdf", some "k1", some "u1", none, 0, 1⟩)]
    "abcdefghijkl" ⟨Status.done, "a.pdf", some "k1", some "u1", none, 0, 1⟩
    "boom" 2 (by rfl)

/-- Counterexample to C3: the download route on a job in state `failed`
answers 400 `JOB_NOT_READY`, not the claimed 404 `JOB_NOT_FOUND`. -/
theorem download_failed_not_notFound :
    (downloadUrlRoute (failJob
        (createJob [] "abcdefghijkl" "a.pdf" 0).2
        "abcdefghijkl" "boom" 1).2
        "abcdefghijkl" (some "u") 2).1 = DlResult.jobNotReady ∧
    DlResult.jobNotReady ≠ DlResult.jobNotFound := by
  constructor
  · rfl
  · decide

/-- C3 amended: for a well-formed id the download route fails with
`JOB_NOT_FOUND` only when the job is absent, fails with `JOB_NOT_READY`
whenever the job exists in any non-`done` state (pending or failed
alike), and succeeds only when the job exists in state `done`. -/
theorem download_route_conditions (store : Store) (jobId : String)
    (freshUrl : Option String) (now : Nat) :
    (isValidJobId (JsValue.str jobId) = true → getJob store jobId = none →
        (downloadUrlRoute store jobId freshUrl now).1 = DlResult.jobNotFound) ∧
      (∀ job, isValidJobId (JsValue.str jobId) = true →
        getJob store jobId = some job → job.status ≠ Status.done →
        (downloadUrlRoute store jobId freshUrl now).1 = DlResult.jobNotReady) ∧
      (∀ url fn, (downloadUrlRoute store jobId freshUrl now).1 = DlResult.ok url fn →
        ∃ job, getJob store jobId = some job ∧ job.status = Status.done) := by
  refine ⟨?_, ?_, ?_⟩
  · intro hv hnone
    simp [downloadUrlRoute, hv, hnone]
  · intro job hv hjob hstat
    simp [downloadUrlRoute, hv, hjob, hstat]
  · intro url fn h
    by_cases hv : isValidJobId (JsValue.str jobId) = true
    · cases hjob : getJob store jobId with
      | none => simp [downloadUrlRoute, hv, hjob] at h
      | some job =>
          refine ⟨job, rfl, ?_⟩
          by_cases hstat : job.status = Status.done
          · exact hstat
          · simp [downloadUrlRoute, hv, hjob, hstat] at h
    · simp [downloadUrlRoute, Bool.of_not_eq_true hv] at h

/-- Counterexample to C4: a second `create` with an id already present
silently replaces the existing record — the pre-existing job (filename
`first.pdf`, created at 0) is gone afterwards. -/
theorem create_overwrites_cex :
    getJob (createJob (createJob [] "abcdefghijkl" "first.pdf" 0).2
        "abcdefghijkl" "second.pdf" 5).2 "abcdefghijkl" =
      some ⟨Status.processing, "second.pdf", none, none, none, 5, 5⟩ ∧
    some (Job.mk Status.processing "second.pdf" none none none 5 5) ≠
      some ⟨Status.processing, "first.pdf", none, none, none, 0, 0⟩ := by
  constructor
  · rfl
  · decide

/-- C4 amended: `createJob` performs no duplicate-id defense at all — it
unconditionally installs a fresh `processing` record under the id, so a
call with an id already present silently replaces the existing record. -/
theorem create_always_installs_fresh (store : Store) (id filename : String)
    (now : Nat) :
    (createJob store id filename now).1 =
        ⟨Status.processing, filename, none, none, none, now, now⟩ ∧
      getJob (createJob store id filename now).2 id =
        some ⟨Status.processing, filename, none, none, none, now, now⟩ := by
  exact ⟨rfl, getJob_storeSet_self store id _⟩

/-- Witness for C7 on a two-job registry: one job 100,000,000 ms old (past
the 86,400,000 ms TTL), one 50,000,000 ms old. -/
theorem getJob_cleanup_witness :
    getJob (cleanup
        [("aaaaaaaaaaaa", ⟨Status.processing, "old.pdf", none, none, none, 0, 0⟩),
         ("bbbbbbbbbbbb", ⟨Status.processing, "new.pdf", none, none, none, 50000000, 50000000⟩)]
        100000000) "bbbbbbbbbbbb" =
      some ⟨Status.processing, "new.pdf", none, none, none, 50000000, 50000000⟩ ↔
    getJob
        [("aaaaaaaaaaaa", ⟨Status.processing, "old.pdf", none, none, none, 0, 0⟩),
         ("bbbbbbbbbbbb", ⟨Status.processing, "new.pdf", none, none, none, 50000000, 50000000⟩)]
        "bbbbbbbbbbbb" =
      some ⟨Status.processing, "new.pdf", none, none, none, 50000000, 50000000⟩ ∧
    ¬ ((50000000 : Nat) < 100000000 - ttlMs) :=
  getJob_cleanup
    [("aaaaaaaaaaaa", ⟨Status.processing, "old.pdf", none, none, none, 0, 0⟩),
     ("bbbbbbbbbbbb", ⟨Status.processing, "new.pdf", none, none, none, 50000000, 50000000⟩)]
    100000000 "bbbbbbbbbbbb"
    ⟨Status.processing, "new.pdf", none, none, none, 50000000, 50000000⟩
    (by decide)

/-- C10: on an existing job, `completeJob` and `failJob` change only the
status fields (`status`, `r2Key`, `presignedUrl`, `error`) and the
`updatedAt` timestamp, which both set to the call time; `filenamePdf` and
`createdAt` are preserved unchanged, and whenever the call time is later
than the previous `updatedAt` the timestamp strictly advances. -/
theorem update_frame (store : Store) (id : String) (job : Job)
    (ref url reason : String) (now : Nat) (h : getJob store id = some job) :
    ∃ jc jf,
      (completeJob store id ref url now).1 = some jc ∧
      (failJob store id reason now).1 = some jf ∧
      getJob (completeJob store id ref url now).2 id = some jc ∧
      getJob (failJob store id reason now).2 id = some jf ∧
      jc.filenamePdf = job.filenamePdf ∧ jf.filenamePdf = job.filenamePdf ∧
      jc.createdAt = job.createdAt ∧ jf.createdAt = job.createdAt ∧
      jc.updatedAt = now ∧ jf.updatedAt = now ∧
      jc.status = Status.done ∧ jc.r2Key = some ref ∧
      jc.presignedUrl = some url ∧ jc.errMsg = job.errMsg ∧
      jf.status = Status.error ∧ jf.errMsg = some reason ∧
      jf.r2Key = job.r2Key ∧ jf.presignedUrl = job.presignedUrl ∧
      (job.updatedAt < now → job.updatedAt < jc.updatedAt ∧ job.updatedAt < jf.updatedAt) := by
  unfold completeJob failJob
  rw [updateJob_found store id ⟨some Status.done, some ref, some url, none⟩ now job h,
    updateJob_found store id ⟨some Status.error, none, none, some reason⟩ now job h]
  refine ⟨applyUpdates job ⟨some Status.done, some ref, some url, none⟩ now,
    applyUpdates job ⟨some Status.error, none, none, some reason⟩ now,
    rfl, rfl, getJob_storeSet_self _ _ _, getJob_storeSet_self _ _ _,
    rfl, rfl, rfl, rfl, rfl, rfl, rfl, rfl, rfl, rfl, rfl, rfl, rfl, rfl,
    fun hlt => ⟨hlt, hlt⟩⟩

/-- Witness for C10 on a one-job registry in state `processing`. -/
theorem update_frame_witness :
    ∃ jc jf,
      (completeJob [("abcdefghijkl",
          ⟨Status.processing, "a.pdf", none, none, none, 3, 3⟩)]
          "abcdefghijkl" "key9" "url9" 7).1 = some jc ∧
      (failJob [("abcdefghijkl",
          ⟨Status.processing, "a.pdf", none, none, none, 3, 3⟩)]
          "abcdefghijkl" "oops" 7).1 = some jf ∧
      getJob (completeJob [("abcdefghijkl",
          ⟨Status.processing, "a.pdf", none, none, none, 3, 3⟩)]
          "abcdefghijkl" "key9" "url9" 7).2 "abcdefghijkl" = some jc ∧
      getJob (failJob [("abcdefghijkl",
          ⟨Status.processing, "a.pdf", none, none, none, 3, 3⟩)]
          "abcdefghijkl" "oops" 7).2 "abcdefghijkl" = some jf ∧
      jc.filenamePdf = "a.pdf" ∧ jf.filenamePdf = "a.pdf" ∧
      jc.createdAt = 3 ∧ jf.createdAt = 3 ∧
      jc.updatedAt = 7 ∧ jf.updatedAt = 7 ∧
      jc.status = Status.done ∧ jc.r2Key = some "key9" ∧
      jc.presignedUrl = some "url9" ∧ jc.errMsg = none ∧
      jf.status = Status.error ∧ jf.errMsg = some "oops" ∧
      jf.r2Key = none ∧ jf.presignedUrl = none ∧
      ((3 : Nat) < 7 → (3 : Nat) < jc.updatedAt ∧ (3 : Nat) < jf.updatedAt) :=
  update_frame [("abcdefghijkl", ⟨Status.processing, "a.pdf", none, none, none, 3, 3⟩)]
    "abcdefghijkl" ⟨Status.processing, "a.pdf", none, none, none, 3, 3⟩
    "key9" "url9" "oops" 7 (by rfl)
